import Mathlib

/-!
Shallow embedding of tparse's `parse/event.go`: the `Event` record, the
JSON decoder (`NewEvent`), the nested-test normalizer
(`ProcessNestedTest`) and the classifier predicates (`Discard`,
`LastLine`, `NoTestFiles`, `NoTestsToRun`, `NoTestsWarn`, `IsCached`,
`NestedTest`, `Cover`, `IsRace`, `IsPanic`), together with proofs of the
specified properties.

Modelling conventions: Go strings are Lean `String`s and the `strings`
package helpers are spelled out on `List Char`; `time.Time` is modelled
by its RFC3339 text (with `""` as the zero time); `float64` values
(`Elapsed`, coverage percentages, JSON numbers) are modelled as exact
rationals.
-/

/-- ASCII digit test, used by the coverage pattern `[0-9]` and by the
RFC3339 timestamp checker. -/
def isDigitC (c : Char) : Bool := '0' ≤ c && c ≤ '9'

/-- Does the character list `t` start with the pattern `p`?  Helper for the
model of `strings.HasPrefix`. -/
def listStarts : List Char → List Char → Bool
  | [], _ => true
  | _ :: _, [] => false
  | p :: ps, c :: cs => p == c && listStarts ps cs

/-- Model of Go `strings.HasPrefix s pre`. -/
def goStarts (s pre : String) : Bool := listStarts pre.data s.data

/-- Model of Go `strings.HasSuffix s suf`. -/
def goEnds (s suf : String) : Bool := listStarts suf.data.reverse s.data.reverse

/-- Does the character list contain `pat` as a contiguous sublist?  Helper
for the model of `strings.Contains`. -/
def listHasSub (pat : List Char) : List Char → Bool
  | [] => pat.isEmpty
  | c :: cs => listStarts pat (c :: cs) || listHasSub pat cs

/-- Model of Go `strings.Contains s sub`. -/
def goContains (s sub : String) : Bool := listHasSub sub.data s.data

/-- Model of Go `strings.Replace(s, "\t", " ", -1)` on the character list:
every tab becomes a single space. -/
def replaceTabs : List Char → List Char
  | [] => []
  | c :: cs => (if c = '\t' then ' ' else c) :: replaceTabs cs

/-- Model of Go `strings.Split(s, " ")` on the character list: split at
every single space, keeping empty tokens (`Split("", " ") = [""]`). -/
def splitOnSpace : List Char → List (List Char)
  | [] => [[]]
  | c :: cs =>
    if c = ' ' then [] :: splitOnSpace cs
    else
      match splitOnSpace cs with
      | [] => [[c]]
      | t :: ts => (c :: t) :: ts

/-- Model of Go `strings.TrimRight(s, "%")`: drop every trailing `'%'`. -/
def trimRightPercent (s : String) : String :=
  String.mk ((s.data.reverse.dropWhile (fun c => c == '%')).reverse)

/-- Value of a digit list, most significant first. -/
def digitsVal (ds : List Char) : Nat :=
  ds.foldl (fun n c => n * 10 + (c.toNat - 48)) 0

/-- Model of `strconv.ParseFloat` restricted to the plain unsigned decimal
forms `digits` and `digits.digits` that the coverage extractor can feed
it; everything else (in particular the empty string produced by a failed
regex search) is a parse error (`none`). -/
def goParseFloat (s : String) : Option ℚ :=
  match s.data.splitOn '.' with
  | [a] =>
    if !a.isEmpty && a.all isDigitC then some (mkRat (Int.ofNat (digitsVal a)) 1) else none
  | [a, b] =>
    if !a.isEmpty && !b.isEmpty && a.all isDigitC && b.all isDigitC then
      some (mkRat (Int.ofNat (digitsVal a * 10 ^ b.length + digitsVal b)) (10 ^ b.length))
    else none
  | _ => none

/-- One attempt to match the regex `[0-9]{1,3}\.[0-9]{1}\%` at the head of
the list with exactly `k` digits before the dot; returns the matched
characters. -/
def matchCoverLen (k : Nat) (cs : List Char) : Option (List Char) :=
  let ds := cs.take k
  if ds.length = k && ds.all isDigitC then
    match cs.drop k with
    | '.' :: d :: '%' :: _ =>
      if isDigitC d then some (ds ++ ['.', d, '%']) else none
    | _ => none
  else none

/-- Match of the regex `[0-9]{1,3}\.[0-9]{1}\%` anchored at the head of the
list, with the greedy preference of `{1,3}`: three digits first, then
two, then one. -/
def matchCoverAt (cs : List Char) : Option (List Char) :=
  (matchCoverLen 3 cs).orElse fun _ =>
    (matchCoverLen 2 cs).orElse fun _ => matchCoverLen 1 cs

/-- Model of `regexp.FindString` for the pattern `[0-9]{1,3}\.[0-9]{1}\%`:
the leftmost match (Go regexp's leftmost-first semantics), `none` when
there is no match anywhere. -/
def findCover : List Char → Option (List Char)
  | [] => none
  | c :: cs => (matchCoverAt (c :: cs)).orElse fun _ => findCover cs

/-- Model of the Go `Action` string type (`type Action string` in
event.go): any string, with eight named constants. -/
abbrev GoAction := String

def ActionRun : GoAction := "run"

def ActionPause : GoAction := "pause"

def ActionCont : GoAction := "cont"

def ActionPass : GoAction := "pass"

def ActionBench : GoAction := "bench"

def ActionFail : GoAction := "fail"

def ActionOutput : GoAction := "output"

def ActionSkip : GoAction := "skip"

/-- Model of `parse.Event` from event.go.  `time` is the RFC3339 text of
the `Time` field (`""` is the zero time); `elapsed` is the `Elapsed`
float64, modelled as an exact rational. -/
structure Event where
  action : GoAction
  output : String
  time : String
  package : String
  test : String
  elapsed : ℚ
  deriving DecidableEq

/-- The zero value of the `Event` struct. -/
def zeroEvent : Event :=
  { action := "", output := "", time := "", package := "", test := "", elapsed := 0 }

/-- The three run-state update markers (the `updates` slice in
event.go). -/
def updates : List String := ["=== RUN   ", "=== PAUSE ", "=== CONT  "]

/-- Model of `(*Event).Discard`: the output begins with one of the three
update markers, or the event is an `output` action with no test name. -/
def Event.Discard (e : Event) : Bool :=
  updates.any (fun u => goStarts e.output u) ||
    (e.action == ActionOutput && e.test == "")

/-- Model of `(*Event).LastLine`. -/
def Event.LastLine (e : Event) : Bool :=
  e.test == "" && e.output == "" && (e.action == ActionPass || e.action == ActionFail)

/-- Model of `(*Event).NoTestFiles`. -/
def Event.NoTestFiles (e : Event) : Bool :=
  goStarts e.output "?   \t" && goEnds e.output "[no test files]\n"

/-- Model of `(*Event).NoTestsToRun`. -/
def Event.NoTestsToRun (e : Event) : Bool :=
  goStarts e.output "ok  \t" && goEnds e.output "[no tests to run]\n"

/-- Model of `(*Event).NoTestsWarn`. -/
def Event.NoTestsWarn (e : Event) : Bool :=
  e.test != "" && e.output == "testing: warning: no tests to run\n"

/-- Model of `(*Event).IsCached`. -/
def Event.IsCached (e : Event) : Bool :=
  goStarts e.output "ok  \t" && goContains e.output "\t(cached)"

/-- Model of `(*Event).NestedTest`: non-empty test name and an output that
begins with `PASS` or `FAIL`. -/
def Event.NestedTest (e : Event) : Bool :=
  e.test != "" && (goStarts e.output "PASS" || goStarts e.output "FAIL")

/-- Model of `(*Event).ProcessNestedTest`, written as a pure
transformation instead of an in-place mutation.  When the event is a
nested test, the action is rewritten according to the `PASS`/`FAIL`
prefix, and the test name is replaced by token 2 of the tab-replaced,
space-split output when that split has more than two tokens. -/
def Event.ProcessNestedTest (e : Event) : Event :=
  if e.NestedTest then
    let e1 :=
      if goStarts e.output "PASS" then { e with action := ActionPass }
      else if goStarts e.output "FAIL" then { e with action := ActionFail }
      else e
    let parts := splitOnSpace (replaceTabs e.output.data)
    if 2 < parts.length then { e1 with test := String.mk (parts.getD 2 []) }
    else e1
  else e

/-- Model of `(*Event).Cover`: when the output mentions `coverage:` and
ends with `of statements\n`, find the first match of
`[0-9]{1,3}\.[0-9]{1}\%`, strip the trailing `%` and parse it; any
failure yields `(0, false)`. -/
def Event.Cover (e : Event) : ℚ × Bool :=
  if goContains e.output "coverage:" && goEnds e.output "of statements\n" then
    let s := String.mk ((findCover e.output.data).getD [])
    match goParseFloat (trimRightPercent s) with
    | some f => (f, true)
    | none => (0, false)
  else (0, false)

/-- Model of `(*Event).IsRace`. -/
def Event.IsRace (e : Event) : Bool :=
  goStarts e.output "WARNING: DATA RACE"

/-- Model of `(*Event).IsPanic`: a literal `panic: ` at the start of the
output, or a `runtime error:` mention that is not marked `as expected`. -/
def Event.IsPanic (e : Event) : Bool :=
  goStarts e.output "panic: " ||
    (goContains e.output "runtime error:" && !goContains e.output "as expected")

/-- JSON values, the input domain of the decoder; numbers carry their
exact decimal value as a rational. -/
inductive Json where
  | null : Json
  | bool : Bool → Json
  | num : ℚ → Json
  | str : String → Json
  | arr : List Json → Json
  | obj : List (String × Json) → Json

/-- ASCII lower-casing of a character list, for case-insensitive JSON
field-name matching. -/
def asciiLower (cs : List Char) : List Char :=
  cs.map (fun c => if 'A' ≤ c && c ≤ 'Z' then Char.ofNat (c.toNat + 32) else c)

/-- Leap-year rule of the Gregorian calendar, as in Go's `time`
package. -/
def isLeapYear (y : Nat) : Bool :=
  y % 4 == 0 && (y % 100 != 0 || y % 400 == 0)

/-- Days in a month, as validated by Go's RFC3339 parser. -/
def daysInMonth (y m : Nat) : Nat :=
  if m == 2 then (if isLeapYear y then 29 else 28)
  else if m == 4 || m == 6 || m == 9 || m == 11 then 30
  else 31

/-- Numeric value of a two-digit group. -/
def d2 (a b : Char) : Nat := 10 * (a.toNat - 48) + (b.toNat - 48)

/-- Validity of an RFC3339 numeric time zone: `Z`, or `±hh:mm` with
`hh ≤ 23` and `mm ≤ 59`. -/
def zoneValid : List Char → Bool
  | ['Z'] => true
  | [s, h1, h2, ':', m1, m2] =>
    (s == '+' || s == '-') && [h1, h2, m1, m2].all isDigitC &&
      decide (d2 h1 h2 ≤ 23) && decide (d2 m1 m2 ≤ 59)
  | _ => false

/-- Validity of the optional fractional-seconds part followed by the time
zone. -/
def fracZoneValid : List Char → Bool
  | '.' :: rest =>
    !(rest.takeWhile isDigitC).isEmpty && zoneValid (rest.dropWhile isDigitC)
  | rest => zoneValid rest

/-- Model of the RFC3339 validation performed by Go's
`time.Time.UnmarshalJSON`: `YYYY-MM-DDTHH:MM:SS`, optional `.digits`
fraction, then `Z` or `±hh:mm`, with all components in range. -/
def rfc3339Valid (s : String) : Bool :=
  match s.data with
  | y1 :: y2 :: y3 :: y4 :: '-' :: mo1 :: mo2 :: '-' :: dd1 :: dd2 :: 'T' ::
      hh1 :: hh2 :: ':' :: mi1 :: mi2 :: ':' :: ss1 :: ss2 :: rest =>
    [y1, y2, y3, y4, mo1, mo2, dd1, dd2, hh1, hh2, mi1, mi2, ss1, ss2].all isDigitC &&
      (let y := 1000 * (y1.toNat - 48) + 100 * (y2.toNat - 48) +
          10 * (y3.toNat - 48) + (y4.toNat - 48)
       let mo := d2 mo1 mo2
       let dd := d2 dd1 dd2
       decide (1 ≤ mo) && decide (mo ≤ 12) && decide (1 ≤ dd) &&
         decide (dd ≤ daysInMonth y mo) && decide (d2 hh1 hh2 ≤ 23) &&
         decide (d2 mi1 mi2 ≤ 59) && decide (d2 ss1 ss2 ≤ 59)) &&
      fracZoneValid rest
  | _ => false

/-- Decoding of one JSON object member into the `Event` struct, following
Go `encoding/json`: the key is matched against the six field names
exactly or ASCII case-insensitively (equivalently, by its lower-cased
form), unknown keys are ignored, `null` leaves the field untouched, and a
type mismatch is an error.  `Time` decodes through
`time.Time.UnmarshalJSON`, which demands a valid RFC3339 string. -/
def applyField (e : Event) (k : String) (v : Json) : Except String Event :=
  match String.mk (asciiLower k.data), v with
  | "action", Json.str s => .ok { e with action := s }
  | "action", Json.null => .ok e
  | "action", _ => .error "json: cannot unmarshal value into field Event.Action of type parse.Action"
  | "output", Json.str s => .ok { e with output := s }
  | "output", Json.null => .ok e
  | "output", _ => .error "json: cannot unmarshal value into field Event.Output of type string"
  | "time", Json.str s =>
    if rfc3339Valid s then .ok { e with time := s }
    else .error "parsing time: not a valid RFC3339 timestamp"
  | "time", Json.null => .ok e
  | "time", _ => .error "Time.UnmarshalJSON: input is not a JSON string"
  | "package", Json.str s => .ok { e with package := s }
  | "package", Json.null => .ok e
  | "package", _ => .error "json: cannot unmarshal value into field Event.Package of type string"
  | "test", Json.str s => .ok { e with test := s }
  | "test", Json.null => .ok e
  | "test", _ => .error "json: cannot unmarshal value into field Event.Test of type string"
  | "elapsed", Json.num q => .ok { e with elapsed := q }
  | "elapsed", Json.null => .ok e
  | "elapsed", _ => .error "json: cannot unmarshal value into field Event.Elapsed of type float64"
  | _, _ => .ok e

/-- Fold of `applyField` over the members of a JSON object, in order;
the first mismatch aborts with its error. -/
def decodeFields (e : Event) : List (String × Json) → Except String Event
  | [] => .ok e
  | (k, v) :: rest =>
    match applyField e k v with
    | .ok e1 => decodeFields e1 rest
    | .error msg => .error msg

/-- Model of `NewEvent` from event.go: `json.Unmarshal` of one line into a
zero `Event`.  The input must be a JSON object (or `null`, which decodes
to the zero value); every other JSON value is a decode error. -/
def NewEvent (j : Json) : Except String Event :=
  match j with
  | Json.obj fields => decodeFields zeroEvent fields
  | Json.null => .ok zeroEvent
  | _ => .error "json: cannot unmarshal value into Go value of type parse.Event"

/-- The package-with-no-test-files event of the end-to-end scenario:
`{"Action":"output","Package":"p","Output":"?   \tp\t[no test files]\n"}`. -/
def evNoFiles : Event :=
  { action := ActionOutput, output := "?   \tp\t[no test files]\n", time := "",
    package := "p", test := "", elapsed := 0 }

/-- Claim C4: on the event with Action `output`, empty Test, Package `p`
and Output `"?   \tp\t[no test files]\n"`, `NoTestFiles` returns true and
`Discard` also returns true — the two predicates legitimately agree,
since the event's Test is empty and its Action is `output`. -/
theorem noTestFiles_discard_agree :
    evNoFiles.NoTestFiles = true ∧ evNoFiles.Discard = true ∧
    evNoFiles.test = "" ∧ evNoFiles.action = ActionOutput :=
  ⟨rfl, rfl, rfl, rfl⟩

/-- Claim C5: for every Event, `Discard` returns true iff the Output
begins with one of the three 10-character markers `"=== RUN   "`,
`"=== PAUSE "`, `"=== CONT  "` (regardless of Test and Action), or the
Action is `output` and the Test is empty; otherwise it returns false. -/
theorem discard_characterization (e : Event) :
    e.Discard = (goStarts e.output "=== RUN   " || goStarts e.output "=== PAUSE " ||
      goStarts e.output "=== CONT  " || (e.action == ActionOutput && e.test == "")) := by
  simp [Event.Discard, updates, Bool.or_assoc]

/-- An output line of a genuine panic that also mentions a runtime
error. -/
def evPanic : Event := { zeroEvent with output := "panic: runtime error: index out of range" }

/-- The known false-negative fixture line: a runtime error marked `as
expected`. -/
def evExpectedPanic : Event :=
  { zeroEvent with
    output := "time_test.go:1: panic in goroutine 7, as expected, with \"runtime error: racy use of timers\"" }

/-- Claim C7: `IsPanic` returns true iff the Output starts with
`"panic: "` or contains `"runtime error:"` without containing
`"as expected"`; in particular it is true on
`"panic: runtime error: index out of range"` and false on the
`as expected` fixture line. -/
theorem isPanic_characterization :
    (∀ e : Event, e.IsPanic = (goStarts e.output "panic: " ||
      (goContains e.output "runtime error:" && !goContains e.output "as expected"))) ∧
    evPanic.IsPanic = true ∧ evExpectedPanic.IsPanic = false :=
  ⟨fun _ => rfl, rfl, rfl⟩

/-- A nested-test trigger event whose Output has two adjacent spaces
before the third token. -/
def evAdjacent : Event :=
  { action := ActionOutput, output := "PASS a  b\n", time := "", package := "p",
    test := "T", elapsed := 0 }

/-- Claim C10: there is an Event satisfying the nested-test trigger for
which `ProcessNestedTest` sets Test to the empty string: on
`Test = "T"`, `Output = "PASS a  b\n"` the space-split of the output is
`["PASS", "a", "", "b\n"]`, so token 2 is empty, the normalized event
has empty Test and is thereafter treated as package-level by the
classifier predicates (`NestedTest` and `NoTestsWarn` no longer hold). -/
theorem nested_empty_test_token :
    evAdjacent.NestedTest = true ∧
    splitOnSpace (replaceTabs evAdjacent.output.data) = ["PASS".data, "a".data, [], "b\n".data] ∧
    evAdjacent.ProcessNestedTest = { evAdjacent with action := ActionPass, test := "" } ∧
    evAdjacent.ProcessNestedTest.test = "" ∧
    evAdjacent.ProcessNestedTest.NestedTest = false ∧
    evAdjacent.ProcessNestedTest.NoTestsWarn = false := by
  refine ⟨rfl, by decide, by decide, by decide, by decide, by decide⟩

/-- Claim C1, counterexample: decoding the well-formed JSON object
`{"Action":"start"}` — whose Action is a string outside the closed
eight-value set — does not fail; it succeeds and returns the Event
carrying the unrecognized action `"start"`.  This refutes the claim that
such input is a decode error. -/
theorem decode_unknown_action_cex :
    NewEvent (Json.obj [("Action", Json.str "start")]) =
      Except.ok { zeroEvent with action := "start" } ∧
    "start" ∉ ["run", "pause", "cont", "pass", "bench", "fail", "output", "skip"] :=
  ⟨rfl, by decide⟩

/-- Claim C1, amended: for every input line that is well-formed JSON in
which the Action field is present as a string not in the closed set,
`NewEvent` succeeds and returns an Event carrying the unrecognized
Action value — unknown actions are accepted, not rejected as a decode
error. -/
theorem decode_unknown_action_ok (s : String)
    (h : s ∉ ["run", "pause", "cont", "pass", "bench", "fail", "output", "skip"]) :
    NewEvent (Json.obj [("Action", Json.str s)]) = Except.ok { zeroEvent with action := s } := by
  rfl

/-- Witness for the amended claim C1, at the concrete unrecognized
action `"installed"`. -/
theorem decode_unknown_action_ok_witness :
    "installed" ∉ ["run", "pause", "cont", "pass", "bench", "fail", "output", "skip"] ∧
    NewEvent (Json.obj [("Action", Json.str "installed")]) =
      Except.ok { zeroEvent with action := "installed" } :=
  ⟨by decide, decode_unknown_action_ok "installed" (by decide)⟩

/-- Characterization of the normalizer as a single conditional record
update; shared by the proofs below. -/
theorem processNestedTest_eq (e : Event) :
    e.ProcessNestedTest =
      if e.test != "" && (goStarts e.output "PASS" || goStarts e.output "FAIL") then
        { e with
          action := if goStarts e.output "PASS" then ActionPass else ActionFail,
          test :=
            if 2 < (splitOnSpace (replaceTabs e.output.data)).length then
              String.mk ((splitOnSpace (replaceTabs e.output.data)).getD 2 [])
            else e.test }
      else e := by
  obtain ⟨a, o, ti, pk, ts, el⟩ := e
  cases hts : ts != "" <;>
    cases hP : goStarts o "PASS" <;>
      cases hF : goStarts o "FAIL" <;>
        simp [Event.ProcessNestedTest, Event.NestedTest, hts, hP, hF] <;>
          split <;> rfl

/-- Claim C3: for every Event with non-empty Test whose Output starts
with `PASS` or `FAIL`, `ProcessNestedTest` rewrites the Action to `pass`
(for prefix `PASS`) or `fail` (for prefix `FAIL`); after replacing every
tab in the Output with a single space and splitting on single spaces, if
the token list has more than two elements the Test is set to the token
at index 2, otherwise the Test is unchanged; when the trigger condition
is false the Event is unchanged. -/
theorem processNestedTest_correct (e : Event) :
    e.ProcessNestedTest =
      if e.test != "" && (goStarts e.output "PASS" || goStarts e.output "FAIL") then
        { e with
          action := if goStarts e.output "PASS" then ActionPass else ActionFail,
          test :=
            if 2 < (splitOnSpace (replaceTabs e.output.data)).length then
              String.mk ((splitOnSpace (replaceTabs e.output.data)).getD 2 [])
            else e.test }
      else e :=
  processNestedTest_eq e

/-- Claim C9: for every Event, `ProcessNestedTest` leaves the Output,
Package, Time and Elapsed fields unchanged — only Action and Test may be
modified by normalization. -/
theorem processNestedTest_frame (e : Event) :
    e.ProcessNestedTest.output = e.output ∧ e.ProcessNestedTest.package = e.package ∧
    e.ProcessNestedTest.time = e.time ∧ e.ProcessNestedTest.elapsed = e.elapsed := by
  rw [processNestedTest_eq]
  refine ⟨?_, ?_, ?_, ?_⟩ <;> (split <;> rfl)

/-- Claim C2: applying `ProcessNestedTest` twice in succession yields
exactly the same Event as applying it once, for all values of Action,
Test and Output. -/
theorem processNestedTest_idem (e : Event) :
    e.ProcessNestedTest.ProcessNestedTest = e.ProcessNestedTest := by
  by_cases h : (e.test != "" && (goStarts e.output "PASS" || goStarts e.output "FAIL")) = true
  · have he := processNestedTest_eq e
    rw [if_pos h] at he
    rw [processNestedTest_eq e.ProcessNestedTest, he]
    obtain ⟨a, o, ti, pk, ts, el⟩ := e
    simp only []
    by_cases hT :
        (if 2 < (splitOnSpace (replaceTabs o.data)).length then
          String.mk ((splitOnSpace (replaceTabs o.data)).getD 2 [])
        else ts) != ""
    · simp only [hT]
      have hPF : (goStarts o "PASS" || goStarts o "FAIL") = true := by
        simp only [Bool.and_eq_true] at h
        exact h.2
      simp [hPF]
      split <;> simp_all
    · simp at hT
      simp [hT]
  · have he := processNestedTest_eq e
    rw [if_neg h] at he
    rw [he, he]

/-- The cached-coverage example line from event.go. -/
def evCoverCached : Event :=
  { zeroEvent with output := "ok  \tgithub.com/mfridman/srfax\t(cached)\tcoverage: 28.8% of statements\n" }

/-- The fresh-run coverage example line, with a 100.0% figure. -/
def evCoverFresh : Event :=
  { zeroEvent with output := "ok  \tgithub.com/mfridman/srfax\t0.027s\tcoverage: 100.0% of statements\n" }

/-- A line with no extractable coverage figure. -/
def evCoverNone : Event := { zeroEvent with output := "no coverage info\n" }

/-- Claim C6: `Cover` returns `(p, true)` exactly when the Output
contains `"coverage:"`, ends with `"of statements\n"`, and its first
match of the pattern `[0-9]{1,3}.[0-9]%`, with the trailing `%`
stripped, parses as the decimal number `p`; in every other case it
returns `(0, false)` and never fails.  In particular the
`coverage: 28.8%` line yields `(28.8, true)`, the `coverage: 100.0%`
line yields `(100.0, true)` and `"no coverage info\n"` yields
`(0, false)`. -/
theorem cover_characterization (e : Event) :
    (∀ p : ℚ, e.Cover = (p, true) ↔
      (goContains e.output "coverage:" && goEnds e.output "of statements\n") = true ∧
      goParseFloat (trimRightPercent (String.mk ((findCover e.output.data).getD []))) = some p) ∧
    (e.Cover.2 = true ∨ e.Cover = (0, false)) ∧
    evCoverCached.Cover = ((28.8 : ℚ), true) ∧
    evCoverFresh.Cover = ((100.0 : ℚ), true) ∧
    evCoverNone.Cover = (0, false) := by
  refine ⟨?_, ?_, ?_, ?_, rfl⟩
  · intro p
    cases hc : (goContains e.output "coverage:" && goEnds e.output "of statements\n") <;>
      cases hp : goParseFloat (trimRightPercent (String.mk ((findCover e.output.data).getD []))) <;>
        simp [Event.Cover, hc, hp]
  · cases hc : (goContains e.output "coverage:" && goEnds e.output "of statements\n") <;>
      cases hp : goParseFloat (trimRightPercent (String.mk ((findCover e.output.data).getD []))) <;>
        simp [Event.Cover, hc, hp]
  · have h1 : evCoverCached.Cover = (mkRat (Int.ofNat 288) 10, true) := rfl
    rw [h1]
    norm_num [Rat.mkRat_eq_div]
  · have h2 : evCoverFresh.Cover = (mkRat (Int.ofNat 1000) 10, true) := rfl
    rw [h2]
    norm_num [Rat.mkRat_eq_div]

/-- Decoding the `Action` member from a JSON string sets the field. -/
theorem applyField_action (e : Event) (s : String) :
    applyField e "Action" (Json.str s) = Except.ok { e with action := s } := rfl

/-- Decoding the `Output` member from a JSON string sets the field. -/
theorem applyField_output (e : Event) (s : String) :
    applyField e "Output" (Json.str s) = Except.ok { e with output := s } := rfl

/-- Decoding the `Time` member from a valid RFC3339 JSON string sets the
field. -/
theorem applyField_time (e : Event) (s : String) (h : rfc3339Valid s = true) :
    applyField e "Time" (Json.str s) = Except.ok { e with time := s } := by
  have h1 : applyField e "Time" (Json.str s) =
      if rfc3339Valid s then Except.ok { e with time := s }
      else Except.error "parsing time: not a valid RFC3339 timestamp" := rfl
  rw [h1, if_pos h]

/-- Decoding the `Package` member from a JSON string sets the field. -/
theorem applyField_package (e : Event) (s : String) :
    applyField e "Package" (Json.str s) = Except.ok { e with package := s } := rfl

/-- Decoding the `Test` member from a JSON string sets the field. -/
theorem applyField_test (e : Event) (s : String) :
    applyField e "Test" (Json.str s) = Except.ok { e with test := s } := rfl

/-- Decoding the `Elapsed` member from a JSON number sets the field. -/
theorem applyField_elapsed (e : Event) (q : ℚ) :
    applyField e "Elapsed" (Json.num q) = Except.ok { e with elapsed := q } := rfl

/-- Builds the member list contributed by one optional field of the
input object: nothing when the field is absent, one member when
present. -/
def optField (n : String) : Option Json → List (String × Json)
  | none => []
  | some v => [(n, v)]

/-- Claim C8: for every input that is valid JSON matching the schema —
any subset of the six fields present with the right types, the Time
field a valid RFC3339 string — the decoder does not fail merely because
the optional fields are absent: each absent field defaults to the zero
value of its type (empty string, zero time, zero number) and each
present field is decoded exactly. -/
theorem decode_optional_defaults
    (act? out? tm? pkg? tst? : Option String) (el? : Option ℚ)
    (htm : ∀ t, tm? = some t → rfc3339Valid t = true) :
    NewEvent (Json.obj (optField "Action" (act?.map Json.str) ++
        optField "Output" (out?.map Json.str) ++ optField "Time" (tm?.map Json.str) ++
        optField "Package" (pkg?.map Json.str) ++ optField "Test" (tst?.map Json.str) ++
        optField "Elapsed" (el?.map Json.num))) =
      Except.ok
        { action := act?.getD "", output := out?.getD "", time := tm?.getD "",
          package := pkg?.getD "", test := tst?.getD "", elapsed := el?.getD 0 } := by
  rcases tm? with _ | t
  · rcases act? with _ | a <;> rcases out? with _ | o <;> rcases pkg? with _ | pk <;>
      rcases tst? with _ | ts <;> rcases el? with _ | q <;>
        simp [NewEvent, decodeFields, optField, zeroEvent, applyField_action,
          applyField_output, applyField_package, applyField_test, applyField_elapsed]
  · have ht : rfc3339Valid t = true := htm t rfl
    rcases act? with _ | a <;> rcases out? with _ | o <;> rcases pkg? with _ | pk <;>
      rcases tst? with _ | ts <;> rcases el? with _ | q <;>
        simp [NewEvent, decodeFields, optField, zeroEvent, applyField_action,
          applyField_output, applyField_time _ _ ht, applyField_package,
          applyField_test, applyField_elapsed]

/-- Witness for claim C8: a concrete object with Action, Output, Time,
Package and Elapsed present and Test absent decodes with the present
fields exact and the absent Test defaulted to the empty string. -/
theorem decode_optional_defaults_witness :
    NewEvent (Json.obj (optField "Action" (Option.map Json.str (some "pass")) ++
        optField "Output" (Option.map Json.str (some "ok\n")) ++
        optField "Time" (Option.map Json.str (some "2019-02-13T12:02:10.183798579Z")) ++
        optField "Package" (Option.map Json.str (some "github.com/mfridman/tparse/tests")) ++
        optField "Test" (Option.map Json.str none) ++
        optField "Elapsed" (Option.map Json.num (some (583/1000 : ℚ))))) =
      Except.ok
        { action := "pass", output := "ok\n", time := "2019-02-13T12:02:10.183798579Z",
          package := "github.com/mfridman/tparse/tests", test := "",
          elapsed := (583/1000 : ℚ) } :=
  decode_optional_defaults (some "pass") (some "ok\n")
    (some "2019-02-13T12:02:10.183798579Z") (some "github.com/mfridman/tparse/tests") none
    (some (583/1000)) (fun t ht => by injection ht with h2; subst h2; decide)
